import Mathlib

/-
Verification of the embryo-grading scripts: a shallow embedding of
src/improve_with_feedback.py (the FeedbackAnalyzer) and of
src/grade_embryos.py (the EmbryoGrader), with theorems settling the
behavioural claims about classification, aggregation, prompt synthesis,
error handling and batch grading.

String operations are modelled over List Char so that every definition
is executable and kernel-reducible:
  pyLower   models str.lower       (ASCII case folding, as used on the data)
  strContains models the  pat in s  containment test
  pyStrip   models str.strip
  pyFind    models str.find with a start index (-1 when absent)
  pySlice   models s[a:b] slicing with a possibly negative end index
  pyJoin    models sep.join(list)
A Python dict row (csv.DictReader output, json.loads output) is modelled
as an association list Record; recGet models d.get(k, default), recSet
models d[k] = v (observed only through recGet/recHasKey, so the key
order of the Python dict is immaterial to every theorem below).
-/

def pyLowerChar (c : Char) : Char :=
  if 65 ≤ c.toNat ∧ c.toNat ≤ 90 then Char.ofNat (c.toNat + 32) else c

def pyLower (s : String) : String := String.mk (s.data.map pyLowerChar)

def listPre : List Char → List Char → Bool
  | [], _ => true
  | _ :: _, [] => false
  | a :: as, b :: bs => a == b && listPre as bs

def subIdx : List Char → List Char → Option Nat
  | cs, pat =>
    match cs with
    | [] => if pat.isEmpty then some 0 else none
    | _ :: rest =>
      if listPre pat cs then some 0
      else (subIdx rest pat).map (· + 1)

def strContains (s pat : String) : Bool := (subIdx s.data pat.data).isSome

def isPyWhitespace (c : Char) : Bool :=
  c == ' ' || c == '\t' || c == '\n' || c == '\x0d' || c == '\x0b' || c == '\x0c'

def pyStrip (s : String) : String :=
  String.mk (((s.data.dropWhile isPyWhitespace).reverse.dropWhile isPyWhitespace).reverse)

def pyFind (s pat : String) (start : Nat) : Int :=
  match subIdx (s.data.drop start) pat.data with
  | some k => ((start + k : Nat) : Int)
  | none => -1

def pySlice (s : String) (a : Nat) (b : Int) : String :=
  let n := s.data.length
  let e : Nat := if b < 0 then ((n : Int) + b).toNat else min b.toNat n
  String.mk ((s.data.drop a).take (e - a))

def pyJoin (sep : String) : List String → String
  | [] => ""
  | [x] => x
  | x :: xs => x ++ sep ++ pyJoin sep xs

def strEnds (s suf : String) : Bool := listPre suf.data.reverse s.data.reverse

def charLe (a b : Char) : Bool := a.toNat ≤ b.toNat

def lexLe : List Char → List Char → Bool
  | [], _ => true
  | _ :: _, [] => false
  | a :: as, b :: bs => if a == b then lexLe as bs else charLe a b

def strLe (a b : String) : Bool := lexLe a.data b.data

def insertSorted (x : String) : List String → List String
  | [] => [x]
  | y :: ys => if strLe x y then x :: y :: ys else y :: insertSorted x ys

def sortStr : List String → List String
  | [] => []
  | x :: xs => insertSorted x (sortStr xs)

/- A row dictionary: the model of one csv.DictReader row and of a parsed
JSON object with string values. -/

abbrev Record : Type := List (String × String)

/-- Models Python dict.get(k, d). -/
def recGet (r : Record) (k d : String) : String :=
  match r with
  | [] => d
  | p :: rest => if p.1 == k then p.2 else recGet rest k d

def recHasKey (r : Record) (k : String) : Bool :=
  match r with
  | [] => false
  | p :: rest => p.1 == k || recHasKey rest k

/-- Models Python dict assignment d[k] = v: replaces the value at an
existing key, otherwise adds the key. -/
def recSet (r : Record) (k v : String) : Record :=
  if recHasKey r k then
    r.map (fun p => if p.1 == k then (k, v) else p)
  else
    r ++ [(k, v)]

/- ===== FeedbackAnalyzer (src/improve_with_feedback.py) ===== -/

/-- The mutable state of a FeedbackAnalyzer instance: feedback_data,
discrepancies and the agreement_stats dict (its four counters as fields;
the Python key named like the p-word is the field named part here). -/
structure AnalyzerState where
  feedback_data : List Record
  discrepancies : List Record
  total : Nat
  agree : Nat
  part : Nat
  disagree : Nat
deriving DecidableEq

/-- FeedbackAnalyzer.__init__: empty lists, all counters zero. -/
def initAnalyzer : AnalyzerState :=
  { feedback_data := [], discrepancies := [], total := 0, agree := 0, part := 0, disagree := 0 }

/-- State after __init__ followed by load_feedback of the given rows
(load_feedback only assigns self.feedback_data). -/
def withFeedback (fb : List Record) : AnalyzerState :=
  { initAnalyzer with feedback_data := fb }

inductive AgreementClass where
  | agree
  | part
  | disagree
deriving DecidableEq

/-- The classification applied to one agreement cell inside the
analyze_feedback loop: agreement = item.get(..).lower() and then the
if / elif / else chain over substring containment. -/
def classifyStr (agreementRaw : String) : AgreementClass :=
  let agreement := pyLower agreementRaw
  if strContains agreement "yes" || strContains agreement "agree" then AgreementClass.agree
  else if strContains agreement "partial" then AgreementClass.part
  else AgreementClass.disagree

def classify (item : Record) : AgreementClass :=
  classifyStr (recGet item "agreement" "")

def isAgree (r : Record) : Bool :=
  match classify r with
  | AgreementClass.agree => true
  | _ => false

def isPart (r : Record) : Bool :=
  match classify r with
  | AgreementClass.part => true
  | _ => false

def isDisagree (r : Record) : Bool :=
  match classify r with
  | AgreementClass.disagree => true
  | _ => false

/-- One iteration of the loop in FeedbackAnalyzer.analyze_feedback:
increment total, then the branch chosen by the classification; the
disagree branch also appends the item to self.discrepancies. -/
def analyzeStep (s : AnalyzerState) (item : Record) : AnalyzerState :=
  match classify item with
  | AgreementClass.agree =>
      { s with total := s.total + 1, agree := s.agree + 1 }
  | AgreementClass.part =>
      { s with total := s.total + 1, part := s.part + 1 }
  | AgreementClass.disagree =>
      { s with total := s.total + 1, disagree := s.disagree + 1,
               discrepancies := s.discrepancies ++ [item] }

/-- FeedbackAnalyzer.analyze_feedback: iterates self.feedback_data once,
mutating the stats and the discrepancy list in place (the counters and
the list are NOT reset at the start of the call). -/
def analyze_feedback (s : AnalyzerState) : AnalyzerState :=
  s.feedback_data.foldl analyzeStep s

/- Discrepancy buckets (FeedbackAnalyzer.generate_improved_prompt) -/

def commentsOf (d : Record) : String := pyLower (recGet d "expert_comments" "")

def isExpansionIssue (d : Record) : Bool :=
  strContains (commentsOf d) "expansion" || strContains (commentsOf d) "stage"

def isIcmIssue (d : Record) : Bool :=
  strContains (commentsOf d) "icm" || strContains (commentsOf d) "inner cell mass"

def isTeIssue (d : Record) : Bool :=
  strContains (commentsOf d) "te" || strContains (commentsOf d) "trophectoderm"

def isStageMisid (d : Record) : Bool :=
  strContains (commentsOf d) "not a blastocyst" || strContains (commentsOf d) "cleavage" ||
    strContains (commentsOf d) "morula"

structure Buckets where
  expansion_errors : List Record
  icm_errors : List Record
  te_errors : List Record
  stage_misidentification : List Record
deriving DecidableEq

/-- One iteration of the bucketing loop over self.discrepancies:
comments = disc.get(..).lower() and four independent if-appends. -/
def bucketStep (b : Buckets) (disc : Record) : Buckets :=
  let b1 := if isExpansionIssue disc then
      { b with expansion_errors := b.expansion_errors ++ [disc] } else b
  let b2 := if isIcmIssue disc then
      { b1 with icm_errors := b1.icm_errors ++ [disc] } else b1
  let b3 := if isTeIssue disc then
      { b2 with te_errors := b2.te_errors ++ [disc] } else b2
  if isStageMisid disc then
      { b3 with stage_misidentification := b3.stage_misidentification ++ [disc] } else b3

def collectBuckets (discs : List Record) : Buckets :=
  discs.foldl bucketStep { expansion_errors := [], icm_errors := [], te_errors := [], stage_misidentification := [] }

def stage_section : String := "\n**CRITICAL: Blastocyst vs Cleavage Stage Identification**\n- ONLY embryos with a visible blastocoel cavity can be graded using Gardner Scale\n- Day 3 embryos are almost always cleavage-stage (2-8 cells) - mark as N/A\n- Compacted morulas without a cavity - mark as N/A\n- If you cannot clearly see a fluid-filled blastocoel, default to N/A\n"

def expansion_section : String := "\n**EXPANSION STAGE GUIDELINES (Expert-Refined):**\n- Stage 1-2: Blastocoel is smaller than or equal to embryo size\n- Stage 3: Blastocoel fills the entire embryo but zona is not thinning\n- Stage 4: Embryo is larger than original size, zona is visibly thinner\n- Stage 5-6: Embryo is hatching or hatched (rarely seen in Day 5)\n- When in doubt between stages, choose the lower number\n"

def icm_section : String := "\n**ICM QUALITY GUIDELINES (Expert-Refined):**\n- Grade A: Many cells (>8), very tightly compacted, clear distinct mass\n- Grade B: Several cells (4-8), somewhat loose grouping\n- Grade C: Few cells (<4) or very poorly defined\n- If ICM is difficult to distinguish, default to grade B, not A\n"

def te_section : String := "\n**TE QUALITY GUIDELINES (Expert-Refined):**\n- Grade A: Many cells forming a smooth, continuous epithelium around entire circumference\n- Grade B: Moderate cells, some gaps or irregularity in epithelium\n- Grade C: Very few cells, large gaps, or very large/irregular cells\n- Look for cohesiveness - even if many cells, gaps = grade B\n"

/-- FeedbackAnalyzer.generate_improved_prompt: bucket the discrepancies,
then append one canned section per truthy (non-empty) bucket, in source
order stage, expansion, icm, te, and join the sections with a newline. -/
def generate_improved_prompt (s : AnalyzerState) : String :=
  let b := collectBuckets s.discrepancies
  let improved_sections : List String := []
  let improved_sections := if b.stage_misidentification.isEmpty then improved_sections
    else improved_sections ++ [stage_section]
  let improved_sections := if b.expansion_errors.isEmpty then improved_sections
    else improved_sections ++ [expansion_section]
  let improved_sections := if b.icm_errors.isEmpty then improved_sections
    else improved_sections ++ [icm_section]
  let improved_sections := if b.te_errors.isEmpty then improved_sections
    else improved_sections ++ [te_section]
  pyJoin "\n" improved_sections

/- load_feedback: the feedback file as seen by the analyzer.  A present
file is a header line plus data rows; csv.DictReader pairs each row
with the header.  open() raises when the file is absent (the Python
FileNotFoundError); NO column validation of any kind is performed. -/

structure CSVFile where
  header : List String
  rows : List (List String)

def dictReaderRow (header : List String) (row : List String) : Record :=
  List.zip header row

inductive LoadError where
  | notFound
deriving DecidableEq

/-- FeedbackAnalyzer.load_feedback: open the file (raising notFound when
it does not exist), read all DictReader rows into self.feedback_data.
No other validation happens. -/
def load_feedback (s : AnalyzerState) (file : Option CSVFile) : Except LoadError AnalyzerState :=
  match file with
  | none => Except.error LoadError.notFound
  | some f => Except.ok { s with feedback_data := f.rows.map (dictReaderRow f.header) }

/-- The analysis pipeline of main(): load_feedback then analyze_feedback;
a loading failure aborts before any analysis. -/
def run_analysis (s : AnalyzerState) (file : Option CSVFile) : Except LoadError AnalyzerState :=
  match load_feedback s file with
  | Except.error e => Except.error e
  | Except.ok s2 => Except.ok (analyze_feedback s2)

/- ===== EmbryoGrader (src/grade_embryos.py) ===== -/

/-- What the try-block observes for one image: either an exception
(raised while loading the image or by the transport layer) carrying its
text, or a textual reply from the remote model. -/
inductive RemoteOutcome where
  | exc (msg : String)
  | reply (text : String)

/-- The record returned from the except-branch of grade_embryo, in
source field order. -/
def errorRecord (image_name image_path ts msg : String) : Record :=
  [("image_name", image_name),
   ("image_path", image_path),
   ("gardner_grade", "ERROR"),
   ("expansion", "ERROR"),
   ("icm_quality", "ERROR"),
   ("te_quality", "ERROR"),
   ("quality_score", "ERROR"),
   ("explanation", "Error during grading: " ++ msg),
   ("full_response", ""),
   ("timestamp", ts)]

/-- The fence-stripping step of grade_embryo applied to the stripped
reply text: cut the text between a leading code fence (json-tagged or
not) and the next fence, mirroring str.find (-1 when the closing fence
is absent, which the slice then treats as end-minus-one). -/
def extractJson (response_text : String) : String :=
  if strContains response_text "```json" then
    let json_start := (pyFind response_text "```json" 0 + 7).toNat
    let json_end := pyFind response_text "```" json_start
    pyStrip (pySlice response_text json_start json_end)
  else if strContains response_text "```" then
    let json_start := (pyFind response_text "```" 0 + 3).toNat
    let json_end := pyFind response_text "```" json_start
    pyStrip (pySlice response_text json_start json_end)
  else response_text

/-- EmbryoGrader.grade_embryo.  loads is the model of json.loads (an
external library function): it either yields the parsed JSON object or
the text of the exception it raised.  Every failure inside the try block
(image loading, transport, parsing) lands in the except-branch returning
errorRecord; on success the four metadata keys are assigned into the
parsed dict. -/
def grade_embryo (image_name image_path ts : String) (outcome : RemoteOutcome)
    (loads : String → Except String Record) : Record :=
  match outcome with
  | RemoteOutcome.exc msg => errorRecord image_name image_path ts msg
  | RemoteOutcome.reply text =>
    let response_text := pyStrip text
    let response_text := extractJson response_text
    match loads response_text with
    | Except.error msg => errorRecord image_name image_path ts msg
    | Except.ok result =>
      let result := recSet result "image_name" image_name
      let result := recSet result "image_path" image_path
      let result := recSet result "timestamp" ts
      recSet result "full_response" text

def matchesJpg (f : String) : Bool := strEnds f ".jpg"

def matchesJpeg (f : String) : Bool := strEnds f ".jpeg"

def isImageName (f : String) : Bool := matchesJpg f || matchesJpeg f

/-- EmbryoGrader.grade_directory: image_files = sorted(glob of *.jpg)
followed by sorted(glob of *.jpeg); one grade_embryo call per file in
that order, collecting the records. -/
def grade_directory (dir : String) (files : List String) (ts : String)
    (outcome : String → RemoteOutcome) (loads : String → Except String Record) : List Record :=
  let image_files := sortStr (files.filter matchesJpg) ++ sortStr (files.filter matchesJpeg)
  image_files.map (fun f => grade_embryo f (dir ++ "/" ++ f) ts (outcome f) loads)

/- Auxiliary propositions used by the claim statements. -/

def allGradingERROR (r : Record) : Prop :=
  recGet r "gardner_grade" "" = "ERROR" ∧ recGet r "expansion" "" = "ERROR" ∧
  recGet r "icm_quality" "" = "ERROR" ∧ recGet r "te_quality" "" = "ERROR" ∧
  recGet r "quality_score" "" = "ERROR"

def allFieldsPresent (r : Record) : Prop :=
  recHasKey r "image_name" = true ∧ recHasKey r "image_path" = true ∧
  recHasKey r "gardner_grade" = true ∧ recHasKey r "expansion" = true ∧
  recHasKey r "icm_quality" = true ∧ recHasKey r "te_quality" = true ∧
  recHasKey r "quality_score" = true ∧ recHasKey r "explanation" = true ∧
  recHasKey r "full_response" = true ∧ recHasKey r "timestamp" = true

/-- The two substring tests of the first branch of the classifier. -/
def hasYesOrAgree (r : Record) : Bool :=
  strContains (pyLower (recGet r "agreement" "")) "yes" ||
    strContains (pyLower (recGet r "agreement" "")) "agree"

/-- The substring test of the second branch of the classifier. -/
def hasPartWord (r : Record) : Bool :=
  strContains (pyLower (recGet r "agreement" "")) "partial"

/-- Modelled from the words of the spec, for refinement comparison only
(the spec reads: agreement is matched case-insensitively against yes or
agree mapping to agree, partial mapping to partial, anything else to
disagree, which taken literally is an equality match). -/
def classifySpecWords (agreementRaw : String) : AgreementClass :=
  let agreement := pyLower agreementRaw
  if agreement == "yes" || agreement == "agree" then AgreementClass.agree
  else if agreement == "partial" then AgreementClass.part
  else AgreementClass.disagree

/-- Modelled from the words of the spec, for refinement comparison only:
batch grading processes the recognized image files in lexicographic
filename order. -/
def specLexOrder (files : List String) : List String :=
  sortStr (files.filter isImageName)

/- ===== Helper lemmas: the classifier ===== -/

theorem classify_eq_cases (r : Record) :
    classify r = (if hasYesOrAgree r then AgreementClass.agree
      else if hasPartWord r then AgreementClass.part else AgreementClass.disagree) := rfl

theorem isAgree_eq (r : Record) : isAgree r = hasYesOrAgree r := by
  cases hy : hasYesOrAgree r <;> cases hp : hasPartWord r <;>
    simp [isAgree, classify_eq_cases, hy, hp]

theorem isPart_eq (r : Record) : isPart r = (!hasYesOrAgree r && hasPartWord r) := by
  cases hy : hasYesOrAgree r <;> cases hp : hasPartWord r <;>
    simp [isPart, classify_eq_cases, hy, hp]

theorem isDisagree_eq (r : Record) : isDisagree r = (!hasYesOrAgree r && !hasPartWord r) := by
  cases hy : hasYesOrAgree r <;> cases hp : hasPartWord r <;>
    simp [isDisagree, classify_eq_cases, hy, hp]

/- ===== Helper lemmas: one analysis pass as a fold ===== -/

theorem foldl_analyzeStep (l : List Record) (s : AnalyzerState) :
    l.foldl analyzeStep s = { s with
      total := s.total + l.length,
      agree := s.agree + l.countP isAgree,
      part := s.part + l.countP isPart,
      disagree := s.disagree + l.countP isDisagree,
      discrepancies := s.discrepancies ++ l.filter isDisagree } := by
  induction l generalizing s with
  | nil => simp
  | cons r t ih =>
    rw [List.foldl_cons, ih]
    rcases hc : classify r with _ | _ | _ <;>
      simp [analyzeStep, hc, isAgree, isPart, isDisagree, List.countP_cons,
        List.filter_cons] <;>
      omega

theorem analyze_feedback_eq (s : AnalyzerState) :
    analyze_feedback s = { s with
      total := s.total + s.feedback_data.length,
      agree := s.agree + s.feedback_data.countP isAgree,
      part := s.part + s.feedback_data.countP isPart,
      disagree := s.disagree + s.feedback_data.countP isDisagree,
      discrepancies := s.discrepancies ++ s.feedback_data.filter isDisagree } :=
  foldl_analyzeStep s.feedback_data s

theorem analyze_fresh (fb : List Record) :
    analyze_feedback (withFeedback fb) = {
      feedback_data := fb,
      discrepancies := fb.filter isDisagree,
      total := fb.length,
      agree := fb.countP isAgree,
      part := fb.countP isPart,
      disagree := fb.countP isDisagree } := by
  rw [analyze_feedback_eq]
  simp [withFeedback, initAnalyzer]

theorem countP_classify_partition (l : List Record) :
    l.countP isAgree + l.countP isPart + l.countP isDisagree = l.length := by
  induction l with
  | nil => simp
  | cons r t ih =>
    rcases hc : classify r with _ | _ | _ <;>
      simp [List.countP_cons, isAgree, isPart, isDisagree, hc] <;> omega

/- ===== Helper lemmas: buckets ===== -/

theorem foldl_bucketStep (l : List Record) (b : Buckets) :
    l.foldl bucketStep b = {
      expansion_errors := b.expansion_errors ++ l.filter isExpansionIssue,
      icm_errors := b.icm_errors ++ l.filter isIcmIssue,
      te_errors := b.te_errors ++ l.filter isTeIssue,
      stage_misidentification := b.stage_misidentification ++ l.filter isStageMisid } := by
  induction l generalizing b with
  | nil => simp
  | cons d t ih =>
    rw [List.foldl_cons, ih]
    by_cases h1 : isExpansionIssue d <;> by_cases h2 : isIcmIssue d <;>
      by_cases h3 : isTeIssue d <;> by_cases h4 : isStageMisid d <;>
      simp [bucketStep, h1, h2, h3, h4, List.filter_cons, List.append_assoc]

theorem collectBuckets_eq (l : List Record) :
    collectBuckets l = {
      expansion_errors := l.filter isExpansionIssue,
      icm_errors := l.filter isIcmIssue,
      te_errors := l.filter isTeIssue,
      stage_misidentification := l.filter isStageMisid } := by
  rw [collectBuckets, foldl_bucketStep]
  simp

theorem filter_isEmpty_eq (p : Record → Bool) (l : List Record) :
    (l.filter p).isEmpty = !(l.any p) := by
  induction l with
  | nil => rfl
  | cons r t ih =>
    by_cases h : p r <;> simp [List.filter_cons, h, ih]

/- ===== Helper lemmas: dict get / set ===== -/

theorem strBeqFalseOfNe {a b : String} (h : a ≠ b) : (a == b) = false := by
  cases hab : a == b
  · rfl
  · exact absurd (by simpa using hab) h

theorem recGet_cons (p : String × String) (t : Record) (k d : String) :
    recGet (p :: t) k d = if p.1 == k then p.2 else recGet t k d := rfl

theorem recHasKey_cons (p : String × String) (t : Record) (k : String) :
    recHasKey (p :: t) k = (p.1 == k || recHasKey t k) := rfl

theorem recGet_map_set (r : Record) (k v d : String) (h : recHasKey r k = true) :
    recGet (r.map (fun p => if p.1 == k then (k, v) else p)) k d = v := by
  induction r with
  | nil => simp [recHasKey] at h
  | cons p t ih =>
    simp only [List.map_cons]
    by_cases hp : (p.1 == k) = true
    · rw [if_pos hp, recGet_cons, if_pos (show ((k, v).1 == k) = true by simp)]
    · have hp' : (p.1 == k) = false := by simpa using hp
      rw [if_neg hp, recGet_cons, if_neg hp]
      apply ih
      rw [recHasKey_cons, hp', Bool.false_or] at h
      exact h

theorem recGet_append_single (r : Record) (k v d : String) (h : recHasKey r k = false) :
    recGet (r ++ [(k, v)]) k d = v := by
  induction r with
  | nil => simp [recGet]
  | cons p t ih =>
    simp only [recHasKey, Bool.or_eq_false_iff] at h
    simp [recGet, h.1, ih h.2]

theorem recGet_set_self (r : Record) (k v d : String) : recGet (recSet r k v) k d = v := by
  rw [recSet]
  by_cases h : recHasKey r k = true
  · simp only [h, if_true]
    exact recGet_map_set r k v d h
  · simp only [Bool.not_eq_true] at h
    simp only [h, Bool.false_eq_true, if_false]
    exact recGet_append_single r k v d h

theorem recGet_map_other (r : Record) (k v k' d : String) (h : (k' == k) = false) :
    recGet (r.map (fun p => if p.1 == k then (k, v) else p)) k' d = recGet r k' d := by
  have hne : k' ≠ k := by simpa using h
  induction r with
  | nil => rfl
  | cons p t ih =>
    simp only [List.map_cons]
    by_cases hp : (p.1 == k) = true
    · have hpk : p.1 = k := by simpa using hp
      have h1 : ((k, v).1 == k') = false := strBeqFalseOfNe (Ne.symm hne)
      have h2 : (p.1 == k') = false := by rw [hpk]; exact strBeqFalseOfNe (Ne.symm hne)
      rw [if_pos hp, recGet_cons, recGet_cons,
        if_neg (show ¬((k, v).1 == k') = true by simp [h1]),
        if_neg (show ¬(p.1 == k') = true by simp [h2])]
      exact ih
    · rw [if_neg hp, recGet_cons, recGet_cons]
      by_cases hk2 : (p.1 == k') = true
      · rw [if_pos hk2, if_pos hk2]
      · rw [if_neg hk2, if_neg hk2]
        exact ih

theorem recGet_append_other (r : Record) (k v k' d : String) (h : (k' == k) = false) :
    recGet (r ++ [(k, v)]) k' d = recGet r k' d := by
  have hne : k' ≠ k := by simpa using h
  induction r with
  | nil => simp [recGet, hne.symm]
  | cons p t ih =>
    by_cases hp : (p.1 == k') = true <;> simp [recGet, hp, ih]

theorem recGet_set_other (r : Record) (k v k' d : String) (h : (k' == k) = false) :
    recGet (recSet r k v) k' d = recGet r k' d := by
  rw [recSet]
  by_cases hk : recHasKey r k = true
  · simp only [hk, if_true]
    exact recGet_map_other r k v k' d h
  · simp only [Bool.not_eq_true] at hk
    simp only [hk, Bool.false_eq_true, if_false]
    exact recGet_append_other r k v k' d h

theorem recHasKey_map_set (r : Record) (k v k' : String) (h : (k' == k) = false) :
    recHasKey (r.map (fun p => if p.1 == k then (k, v) else p)) k' = recHasKey r k' := by
  have hne : k' ≠ k := by simpa using h
  induction r with
  | nil => rfl
  | cons p t ih =>
    simp only [List.map_cons]
    by_cases hp : (p.1 == k) = true
    · have hpk : p.1 = k := by simpa using hp
      have h1 : ((k, v).1 == k') = false := strBeqFalseOfNe (Ne.symm hne)
      have h2 : (p.1 == k') = false := by rw [hpk]; exact strBeqFalseOfNe (Ne.symm hne)
      rw [if_pos hp, recHasKey_cons, recHasKey_cons, h1, h2, Bool.false_or, Bool.false_or]
      exact ih
    · rw [if_neg hp, recHasKey_cons, recHasKey_cons, ih]

theorem recHasKey_append_other (r : Record) (k v k' : String) (h : (k' == k) = false) :
    recHasKey (r ++ [(k, v)]) k' = recHasKey r k' := by
  have hne : k' ≠ k := by simpa using h
  induction r with
  | nil => simp [recHasKey, hne.symm]
  | cons p t ih => simp [recHasKey, ih, Bool.or_assoc]

theorem recHasKey_set_other (r : Record) (k v k' : String) (h : (k' == k) = false) :
    recHasKey (recSet r k v) k' = recHasKey r k' := by
  rw [recSet]
  by_cases hk : recHasKey r k = true
  · simp only [hk, if_true]
    exact recHasKey_map_set r k v k' h
  · simp only [Bool.not_eq_true] at hk
    simp only [hk, Bool.false_eq_true, if_false]
    exact recHasKey_append_other r k v k' h

theorem recHasKey_map_set_self (r : Record) (k v : String) (h : recHasKey r k = true) :
    recHasKey (r.map (fun p => if p.1 == k then (k, v) else p)) k = true := by
  induction r with
  | nil => simp [recHasKey] at h
  | cons p t ih =>
    simp only [List.map_cons]
    by_cases hp : (p.1 == k) = true
    · rw [if_pos hp, recHasKey_cons, show ((k, v).1 == k) = true by simp, Bool.true_or]
    · have hp' : (p.1 == k) = false := by simpa using hp
      rw [if_neg hp, recHasKey_cons, hp', Bool.false_or]
      apply ih
      rw [recHasKey_cons, hp', Bool.false_or] at h
      exact h

theorem recHasKey_append_self (r : Record) (k v : String) :
    recHasKey (r ++ [(k, v)]) k = true := by
  induction r with
  | nil => simp [recHasKey]
  | cons p t ih => simp [recHasKey, ih]

theorem recHasKey_set_self (r : Record) (k v : String) : recHasKey (recSet r k v) k = true := by
  rw [recSet]
  by_cases hk : recHasKey r k = true
  · simp only [hk, if_true]
    exact recHasKey_map_set_self r k v hk
  · simp only [Bool.not_eq_true] at hk
    simp only [hk, Bool.false_eq_true, if_false]
    exact recHasKey_append_self r k v

/- ===== Helper lemmas: sorting and image-file selection ===== -/

theorem insertSorted_perm (x : String) (l : List String) :
    (insertSorted x l).Perm (x :: l) := by
  induction l with
  | nil => exact List.Perm.refl _
  | cons y ys ih =>
    rw [insertSorted]
    by_cases h : strLe x y = true
    · simp [h]
    · simp only [Bool.not_eq_true] at h
      simp only [h, Bool.false_eq_true, if_false]
      exact (ih.cons y).trans (List.Perm.swap x y ys)

theorem sortStr_perm (l : List String) : (sortStr l).Perm l := by
  induction l with
  | nil => exact List.Perm.refl _
  | cons x xs ih => exact (insertSorted_perm x (sortStr xs)).trans (ih.cons x)

theorem jpg_not_jpeg (f : String) (h : matchesJpg f = true) : matchesJpeg f = false := by
  rw [matchesJpg, strEnds] at h
  rw [matchesJpeg, strEnds]
  have hj : (".jpg" : String).data.reverse = ['g', 'p', 'j', '.'] := by decide
  have he : (".jpeg" : String).data.reverse = ['g', 'e', 'p', 'j', '.'] := by decide
  rw [hj] at h
  rw [he]
  rcases hl : f.data.reverse with _ | ⟨a, _ | ⟨b, t⟩⟩
  · rw [hl] at h
    simp [listPre] at h
  · rw [hl] at h
    simp [listPre] at h
  · rw [hl] at h
    simp only [listPre, Bool.and_eq_true, beq_iff_eq] at h
    obtain ⟨ha, hb, -⟩ := h
    subst ha
    subst hb
    simp only [listPre]
    rw [show (('e' : Char) == 'p') = false by decide]
    simp

theorem filter_split_perm (files : List String) :
    (files.filter matchesJpg ++ files.filter matchesJpeg).Perm (files.filter isImageName) := by
  induction files with
  | nil => exact List.Perm.refl _
  | cons f t ih =>
    by_cases hj : matchesJpg f = true
    · have hje : matchesJpeg f = false := jpg_not_jpeg f hj
      simp only [List.filter_cons, hj, hje, isImageName, Bool.or_false, if_true,
        Bool.false_eq_true, if_false, List.cons_append]
      exact ih.cons f
    · simp only [Bool.not_eq_true] at hj
      by_cases hje : matchesJpeg f = true
      · simp only [List.filter_cons, hj, hje, isImageName, Bool.false_or, if_true,
          Bool.false_eq_true, if_false]
        exact List.perm_middle.trans (ih.cons f)
      · simp only [Bool.not_eq_true] at hje
        simp only [List.filter_cons, hj, hje, isImageName, Bool.or_self,
          Bool.false_eq_true, if_false]
        exact ih

/- ===== Helper lemmas: grade_embryo ===== -/

theorem grade_embryo_exc (nm pth ts msg : String) (loads : String → Except String Record) :
    grade_embryo nm pth ts (RemoteOutcome.exc msg) loads = errorRecord nm pth ts msg := rfl

theorem grade_embryo_reply_err (nm pth ts text e : String)
    (loads : String → Except String Record)
    (h : loads (extractJson (pyStrip text)) = Except.error e) :
    grade_embryo nm pth ts (RemoteOutcome.reply text) loads = errorRecord nm pth ts e := by
  simp only [grade_embryo]
  rw [h]

theorem grade_embryo_reply_ok (nm pth ts text : String)
    (loads : String → Except String Record) (parsed : Record)
    (h : loads (extractJson (pyStrip text)) = Except.ok parsed) :
    grade_embryo nm pth ts (RemoteOutcome.reply text) loads =
      recSet (recSet (recSet (recSet parsed "image_name" nm) "image_path" pth)
        "timestamp" ts) "full_response" text := by
  simp only [grade_embryo]
  rw [h]

theorem errExplanation_ne (msg : String) : ("Error during grading: " ++ msg) ≠ "" := by
  intro hcon
  have h2 : ("Error during grading: " ++ msg).data = ([] : List Char) :=
    congrArg String.data hcon
  rw [String.data_append] at h2
  have h3 := List.append_eq_nil.mp h2
  exact absurd h3.1 (by decide)

theorem grade_embryo_image_name (nm pth ts : String) (o : RemoteOutcome)
    (loads : String → Except String Record) :
    recGet (grade_embryo nm pth ts o loads) "image_name" "" = nm := by
  cases o with
  | exc msg => rfl
  | reply text =>
    simp only [grade_embryo]
    cases hl : loads (extractJson (pyStrip text)) with
    | error msg => rfl
    | ok parsed =>
      rw [recGet_set_other _ _ _ _ _ (by decide), recGet_set_other _ _ _ _ _ (by decide),
        recGet_set_other _ _ _ _ _ (by decide), recGet_set_self]

theorem isAgree_false_of_isDisagree (r : Record) (h : isDisagree r = true) :
    isAgree r = false := by
  rcases hc : classify r with _ | _ | _ <;> simp [isAgree, isDisagree, hc] at h ⊢

theorem isPart_false_of_isDisagree (r : Record) (h : isDisagree r = true) :
    isPart r = false := by
  rcases hc : classify r with _ | _ | _ <;> simp [isPart, isDisagree, hc] at h ⊢

/- ===== Claim theorems ===== -/

/-- C1 counterexample: taking the claim literally, the value Disagree
matches neither yes nor agree nor partial, so it would have to be
counted as disagree and appended to the discrepancy list; the code
instead counts it as agree (substring containment) and appends nothing. -/
theorem C1_counterexample :
    classifySpecWords "Disagree" = AgreementClass.disagree ∧
    classifyStr "Disagree" = AgreementClass.agree ∧
    (analyze_feedback (withFeedback [[("agreement", "Disagree")]])).agree = 1 ∧
    (analyze_feedback (withFeedback [[("agreement", "Disagree")]])).disagree = 0 ∧
    (analyze_feedback (withFeedback [[("agreement", "Disagree")]])).discrepancies = [] := by
  decide

/-- C1 (amended): analyze_feedback classifies each record by
case-insensitive SUBSTRING containment on its agreement field: a value
containing yes or agree counts as agree; otherwise one containing
partial counts as partial; every remaining record counts as disagree
and is appended to the discrepancy list. -/
theorem C1_theorem (fb : List Record) :
    (analyze_feedback (withFeedback fb)).total = fb.length ∧
    (analyze_feedback (withFeedback fb)).agree = fb.countP hasYesOrAgree ∧
    (analyze_feedback (withFeedback fb)).part =
      fb.countP (fun r => !hasYesOrAgree r && hasPartWord r) ∧
    (analyze_feedback (withFeedback fb)).disagree =
      fb.countP (fun r => !hasYesOrAgree r && !hasPartWord r) ∧
    (analyze_feedback (withFeedback fb)).discrepancies =
      fb.filter (fun r => !hasYesOrAgree r && !hasPartWord r) := by
  rw [analyze_fresh]
  refine ⟨rfl, ?_, ?_, ?_, ?_⟩
  · exact List.countP_congr (fun r _ => by rw [isAgree_eq r])
  · exact List.countP_congr (fun r _ => by rw [isPart_eq r])
  · exact List.countP_congr (fun r _ => by rw [isDisagree_eq r])
  · exact List.filter_congr (fun r _ => isDisagree_eq r)

/-- C2: after one analysis pass over any feedback list from a fresh
analyzer, agree + partial + disagree equals total exactly and total
equals the number of records. -/
theorem C2_theorem (fb : List Record) :
    (analyze_feedback (withFeedback fb)).agree + (analyze_feedback (withFeedback fb)).part +
        (analyze_feedback (withFeedback fb)).disagree =
      (analyze_feedback (withFeedback fb)).total ∧
    (analyze_feedback (withFeedback fb)).total = fb.length := by
  rw [analyze_fresh]
  exact ⟨countP_classify_partition fb, rfl⟩

/-- C3 counterexample: a second analyze_feedback call on the same
instance does NOT overwrite the previous stats: one record with
agreement Yes gives total = 1, agree = 1 after one call but total = 2,
agree = 2 after a second call, not the single-call stats. -/
theorem C3_counterexample :
    (analyze_feedback (withFeedback [[("agreement", "Yes")]])).total = 1 ∧
    (analyze_feedback (withFeedback [[("agreement", "Yes")]])).agree = 1 ∧
    (analyze_feedback (analyze_feedback (withFeedback [[("agreement", "Yes")]]))).total = 2 ∧
    (analyze_feedback (analyze_feedback (withFeedback [[("agreement", "Yes")]]))).agree = 2 := by
  decide

/-- C3 (amended): a second analyze_feedback call on the same instance
accumulates on top of the previous run instead of overwriting it: every
counter is incremented again by its per-pass count (so it doubles
relative to one pass) and the per-pass discrepancies are appended to
the list a second time. -/
theorem C3_theorem (fb : List Record) :
    analyze_feedback (analyze_feedback (withFeedback fb)) = {
      analyze_feedback (withFeedback fb) with
      total := (analyze_feedback (withFeedback fb)).total + fb.length,
      agree := (analyze_feedback (withFeedback fb)).agree + fb.countP isAgree,
      part := (analyze_feedback (withFeedback fb)).part + fb.countP isPart,
      disagree := (analyze_feedback (withFeedback fb)).disagree + fb.countP isDisagree,
      discrepancies :=
        (analyze_feedback (withFeedback fb)).discrepancies ++ fb.filter isDisagree } := by
  have hfd : (analyze_feedback (withFeedback fb)).feedback_data = fb := by
    rw [analyze_fresh]
  rw [analyze_feedback_eq (analyze_feedback (withFeedback fb)), hfd]
  simp only [hfd]

/-- C7: the amended rubric is the newline-join of one fixed canned
section per non-empty bucket, in the fixed order stage-misidentification,
expansion, icm, te; empty buckets contribute nothing and when every
bucket is empty the result is the empty string. -/
theorem C7_theorem (s : AnalyzerState) :
    generate_improved_prompt s =
      pyJoin "\n"
        ((if s.discrepancies.any isStageMisid then [stage_section] else []) ++
         (if s.discrepancies.any isExpansionIssue then [expansion_section] else []) ++
         (if s.discrepancies.any isIcmIssue then [icm_section] else []) ++
         (if s.discrepancies.any isTeIssue then [te_section] else [])) ∧
    ((s.discrepancies.any isStageMisid || s.discrepancies.any isExpansionIssue ||
        s.discrepancies.any isIcmIssue || s.discrepancies.any isTeIssue) = false →
      generate_improved_prompt s = "") := by
  have hmain : generate_improved_prompt s =
      pyJoin "\n"
        ((if s.discrepancies.any isStageMisid then [stage_section] else []) ++
         (if s.discrepancies.any isExpansionIssue then [expansion_section] else []) ++
         (if s.discrepancies.any isIcmIssue then [icm_section] else []) ++
         (if s.discrepancies.any isTeIssue then [te_section] else [])) := by
    by_cases h1 : s.discrepancies.any isStageMisid = true <;>
      by_cases h2 : s.discrepancies.any isExpansionIssue = true <;>
      by_cases h3 : s.discrepancies.any isIcmIssue = true <;>
      by_cases h4 : s.discrepancies.any isTeIssue = true <;>
      simp [generate_improved_prompt, collectBuckets_eq, filter_isEmpty_eq,
        h1, h2, h3, h4]
  refine ⟨hmain, fun hz => ?_⟩
  rw [hmain]
  cases q1 : s.discrepancies.any isStageMisid <;>
    cases q2 : s.discrepancies.any isExpansionIssue <;>
    cases q3 : s.discrepancies.any isIcmIssue <;>
    cases q4 : s.discrepancies.any isTeIssue <;>
    simp_all [pyJoin]

/-- C7 witness: the fresh analyzer has no discrepancies, every bucket is
empty, and the synthesized rubric is the empty string. -/
theorem C7_witness :
    ((initAnalyzer.discrepancies.any isStageMisid ||
        initAnalyzer.discrepancies.any isExpansionIssue ||
        initAnalyzer.discrepancies.any isIcmIssue ||
        initAnalyzer.discrepancies.any isTeIssue) = false) ∧
    generate_improved_prompt initAnalyzer = "" :=
  ⟨by decide, (C7_theorem initAnalyzer).2 (by decide)⟩

/-- C8: a record whose agreement field is Partial is classified partial,
counted in the partial counter, and appears neither in the discrepancy
list nor in any of the four discrepancy buckets. -/
theorem C8_theorem (fb : List Record) (r : Record) (hmem : r ∈ fb)
    (hag : recGet r "agreement" "" = "Partial") :
    classify r = AgreementClass.part ∧
    1 ≤ (analyze_feedback (withFeedback fb)).part ∧
    r ∉ (analyze_feedback (withFeedback fb)).discrepancies ∧
    r ∉ (collectBuckets (analyze_feedback (withFeedback fb)).discrepancies).stage_misidentification ∧
    r ∉ (collectBuckets (analyze_feedback (withFeedback fb)).discrepancies).expansion_errors ∧
    r ∉ (collectBuckets (analyze_feedback (withFeedback fb)).discrepancies).icm_errors ∧
    r ∉ (collectBuckets (analyze_feedback (withFeedback fb)).discrepancies).te_errors := by
  have hcl : classify r = AgreementClass.part := by
    rw [show classify r = classifyStr (recGet r "agreement" "") from rfl, hag]
    decide
  have hnd : isDisagree r = false := by simp [isDisagree, hcl]
  have hp : isPart r = true := by simp [isPart, hcl]
  have hdis : (analyze_feedback (withFeedback fb)).discrepancies = fb.filter isDisagree := by
    rw [analyze_fresh]
  have hnotdis : r ∉ fb.filter isDisagree := by
    intro hin
    rcases List.mem_filter.mp hin with ⟨-, hd⟩
    rw [hnd] at hd
    exact absurd hd (by decide)
  have hbucket : ∀ p : Record → Bool,
      r ∉ ((analyze_feedback (withFeedback fb)).discrepancies).filter p := by
    intro p hin
    refine hnotdis ?_
    rw [← hdis]
    exact (List.mem_filter.mp hin).1
  refine ⟨hcl, ?_, ?_, ?_, ?_, ?_, ?_⟩
  · rw [analyze_fresh]
    exact List.countP_pos_iff.mpr ⟨r, hmem, hp⟩
  · rw [hdis]
    exact hnotdis
  · rw [collectBuckets_eq]
    exact hbucket isStageMisid
  · rw [collectBuckets_eq]
    exact hbucket isExpansionIssue
  · rw [collectBuckets_eq]
    exact hbucket isIcmIssue
  · rw [collectBuckets_eq]
    exact hbucket isTeIssue

def pRec : Record := [("agreement", "Partial")]

/-- C8 witness: the single record with agreement Partial. -/
theorem C8_witness :
    (pRec ∈ [pRec] ∧ recGet pRec "agreement" "" = "Partial") ∧
    (classify pRec = AgreementClass.part ∧
     1 ≤ (analyze_feedback (withFeedback [pRec])).part ∧
     pRec ∉ (analyze_feedback (withFeedback [pRec])).discrepancies ∧
     pRec ∉ (collectBuckets (analyze_feedback (withFeedback [pRec])).discrepancies).stage_misidentification ∧
     pRec ∉ (collectBuckets (analyze_feedback (withFeedback [pRec])).discrepancies).expansion_errors ∧
     pRec ∉ (collectBuckets (analyze_feedback (withFeedback [pRec])).discrepancies).icm_errors ∧
     pRec ∉ (collectBuckets (analyze_feedback (withFeedback [pRec])).discrepancies).te_errors) :=
  ⟨⟨by decide, by decide⟩, C8_theorem [pRec] pRec (by decide) (by decide)⟩

/-- C10: any record whose agreement field contains agree as a
case-insensitive substring (the value Disagree included) is classified
agree, counted in the agree counter, and never appended to the
discrepancy list. -/
theorem C10_theorem (fb : List Record) (r : Record) (hmem : r ∈ fb)
    (h : strContains (pyLower (recGet r "agreement" "")) "agree" = true) :
    classify r = AgreementClass.agree ∧
    1 ≤ (analyze_feedback (withFeedback fb)).agree ∧
    r ∉ (analyze_feedback (withFeedback fb)).discrepancies := by
  have hya : hasYesOrAgree r = true := by
    unfold hasYesOrAgree
    rw [h]
    exact Bool.or_true _
  have hcl : classify r = AgreementClass.agree := by
    rw [classify_eq_cases, hya]
    rfl
  have hagr : isAgree r = true := by simp [isAgree, hcl]
  have hnd : isDisagree r = false := by simp [isDisagree, hcl]
  refine ⟨hcl, ?_, ?_⟩
  · rw [analyze_fresh]
    exact List.countP_pos_iff.mpr ⟨r, hmem, hagr⟩
  · rw [analyze_fresh]
    show r ∉ fb.filter isDisagree
    intro hin
    rcases List.mem_filter.mp hin with ⟨-, hd⟩
    rw [hnd] at hd
    exact absurd hd (by decide)

def dRec : Record := [("agreement", "Disagree")]

/-- C10 witness: the record with agreement Disagree, whose lowercase form
contains agree as a substring. -/
theorem C10_witness :
    (dRec ∈ [dRec] ∧ strContains (pyLower (recGet dRec "agreement" "")) "agree" = true) ∧
    (classify dRec = AgreementClass.agree ∧
     1 ≤ (analyze_feedback (withFeedback [dRec])).agree ∧
     dRec ∉ (analyze_feedback (withFeedback [dRec])).discrepancies) :=
  ⟨⟨by decide, by decide⟩, C10_theorem [dRec] dRec (by decide) (by decide)⟩

theorem dictReaderRow_get_absent (header row : List String) (k : String)
    (h : k ∉ header) : recGet (dictReaderRow header row) k "" = "" := by
  induction header generalizing row with
  | nil => rfl
  | cons hh ht ih =>
    cases row with
    | nil => rfl
    | cons v vs =>
      have hne : hh ≠ k := by
        intro e
        refine h ?_
        rw [← e]
        exact List.mem_cons_self hh ht
      simp only [dictReaderRow, List.zip_cons_cons, recGet_cons]
      rw [strBeqFalseOfNe hne]
      simp only [Bool.false_eq_true, if_false]
      exact ih vs (fun hk => h (List.mem_cons_of_mem hh hk))

/-- A feedback file whose header lacks the agreement, expert_grade and
expert_comments columns; rows parse fine under csv.DictReader. -/
def missingColsFile : CSVFile :=
  { header := ["image_name", "ai_grade"], rows := [["D5_368.jpg", "4AA"]] }

/-- C6 counterexample: with required columns absent, load_feedback does
NOT fail with any FormatError: loading succeeds and the analysis run
proceeds over the loaded rows, contradicting the claim that the failure
is fatal and nothing is analyzed. -/
theorem C6_counterexample :
    ("agreement" ∉ missingColsFile.header) ∧
    (load_feedback initAnalyzer (some missingColsFile)).isOk = true ∧
    (run_analysis initAnalyzer (some missingColsFile)).isOk = true := by
  decide

/-- C6 (amended): load_feedback fails (with the file-not-found error)
exactly when the file is absent, and that failure is fatal: run_analysis
then analyzes nothing.  When required columns are merely absent no error
of any kind is raised: loading succeeds, the records simply lack those
keys, and because the agreement lookup then defaults to the empty
string every such record is classified disagree and bucketed into the
discrepancy list. -/
theorem C6_theorem (s : AnalyzerState) (f : CSVFile)
    (hmiss : "agreement" ∉ f.header) :
    load_feedback s none = Except.error LoadError.notFound ∧
    run_analysis s none = Except.error LoadError.notFound ∧
    (load_feedback s (some f)).isOk = true ∧
    run_analysis initAnalyzer (some f) = Except.ok {
      feedback_data := f.rows.map (dictReaderRow f.header),
      discrepancies := f.rows.map (dictReaderRow f.header),
      total := f.rows.length,
      agree := 0,
      part := 0,
      disagree := f.rows.length } := by
  refine ⟨rfl, rfl, rfl, ?_⟩
  have hall : ∀ r ∈ f.rows.map (dictReaderRow f.header), isDisagree r = true := by
    intro r hr
    rcases List.mem_map.mp hr with ⟨row, -, hrow⟩
    subst hrow
    have hget : recGet (dictReaderRow f.header row) "agreement" "" = "" :=
      dictReaderRow_get_absent f.header row "agreement" hmiss
    have hcl : classify (dictReaderRow f.header row) = AgreementClass.disagree := by
      rw [show classify (dictReaderRow f.header row) =
        classifyStr (recGet (dictReaderRow f.header row) "agreement" "") from rfl, hget]
      decide
    simp [isDisagree, hcl]
  have hrun : run_analysis initAnalyzer (some f) =
      Except.ok (analyze_feedback (withFeedback (f.rows.map (dictReaderRow f.header)))) := rfl
  rw [hrun, analyze_fresh]
  have h1 : List.filter isDisagree (f.rows.map (dictReaderRow f.header)) =
      f.rows.map (dictReaderRow f.header) := List.filter_eq_self.mpr hall
  have h2 : List.countP isAgree (f.rows.map (dictReaderRow f.header)) = 0 := by
    rw [List.countP_eq_zero]
    intro r hr
    rw [isAgree_false_of_isDisagree r (hall r hr)]
    decide
  have h3 : List.countP isPart (f.rows.map (dictReaderRow f.header)) = 0 := by
    rw [List.countP_eq_zero]
    intro r hr
    rw [isPart_false_of_isDisagree r (hall r hr)]
    decide
  have h4 : List.countP isDisagree (f.rows.map (dictReaderRow f.header)) =
      (f.rows.map (dictReaderRow f.header)).length := List.countP_eq_length.mpr hall
  rw [h1, h2, h3, h4, List.length_map]

/-- C6 witness: the amended claim evaluated at the concrete file whose
header lacks the agreement column. -/
theorem C6_witness :
    ("agreement" ∉ missingColsFile.header) ∧
    (load_feedback initAnalyzer none = Except.error LoadError.notFound ∧
     run_analysis initAnalyzer none = Except.error LoadError.notFound ∧
     (load_feedback initAnalyzer (some missingColsFile)).isOk = true ∧
     run_analysis initAnalyzer (some missingColsFile) = Except.ok {
       feedback_data := missingColsFile.rows.map (dictReaderRow missingColsFile.header),
       discrepancies := missingColsFile.rows.map (dictReaderRow missingColsFile.header),
       total := missingColsFile.rows.length,
       agree := 0,
       part := 0,
       disagree := missingColsFile.rows.length }) :=
  ⟨by decide, C6_theorem initAnalyzer missingColsFile (by decide)⟩

/-- Models json.loads raising on a reply that is not valid JSON. -/
def loadsFail : String → Except String Record :=
  fun _ => Except.error "Expecting value"

/-- C4: a transport exception or a JSON parsing failure never
propagates out of grade_embryo: the result is a record whose five
grading fields are all ERROR and whose explanation is the non-empty
string Error during grading followed by the exception text; and a batch
pass still yields one record for every recognized image file. -/
theorem C4_theorem (nm pth ts msg text e dir : String)
    (loads : String → Except String Record) (files : List String)
    (outcome : String → RemoteOutcome)
    (hparse : loads (extractJson (pyStrip text)) = Except.error e) :
    (allGradingERROR (grade_embryo nm pth ts (RemoteOutcome.exc msg) loads) ∧
     recGet (grade_embryo nm pth ts (RemoteOutcome.exc msg) loads) "explanation" "" =
       "Error during grading: " ++ msg ∧
     recGet (grade_embryo nm pth ts (RemoteOutcome.exc msg) loads) "explanation" "" ≠ "") ∧
    (allGradingERROR (grade_embryo nm pth ts (RemoteOutcome.reply text) loads) ∧
     recGet (grade_embryo nm pth ts (RemoteOutcome.reply text) loads) "explanation" "" =
       "Error during grading: " ++ e ∧
     recGet (grade_embryo nm pth ts (RemoteOutcome.reply text) loads) "explanation" "" ≠ "") ∧
    (grade_directory dir files ts outcome loads).length =
      (files.filter matchesJpg).length + (files.filter matchesJpeg).length := by
  have hexc : grade_embryo nm pth ts (RemoteOutcome.exc msg) loads =
      errorRecord nm pth ts msg := rfl
  have hrep := grade_embryo_reply_err nm pth ts text e loads hparse
  refine ⟨?_, ?_, ?_⟩
  · rw [hexc]
    exact ⟨⟨rfl, rfl, rfl, rfl, rfl⟩, rfl, errExplanation_ne msg⟩
  · rw [hrep]
    exact ⟨⟨rfl, rfl, rfl, rfl, rfl⟩, rfl, errExplanation_ne e⟩
  · simp only [grade_directory, List.length_map, List.length_append,
      (sortStr_perm (files.filter matchesJpg)).length_eq,
      (sortStr_perm (files.filter matchesJpeg)).length_eq]

/-- C4 witness: a transport outage and a non-JSON reply, on a concrete
image and an empty directory. -/
theorem C4_witness :
    (loadsFail (extractJson (pyStrip "oops")) = Except.error "Expecting value") ∧
    ((allGradingERROR
        (grade_embryo "a.jpg" "imgs/a.jpg" "t0" (RemoteOutcome.exc "net down") loadsFail) ∧
      recGet (grade_embryo "a.jpg" "imgs/a.jpg" "t0" (RemoteOutcome.exc "net down") loadsFail)
          "explanation" "" = "Error during grading: " ++ "net down" ∧
      recGet (grade_embryo "a.jpg" "imgs/a.jpg" "t0" (RemoteOutcome.exc "net down") loadsFail)
          "explanation" "" ≠ "") ∧
     (allGradingERROR
        (grade_embryo "a.jpg" "imgs/a.jpg" "t0" (RemoteOutcome.reply "oops") loadsFail) ∧
      recGet (grade_embryo "a.jpg" "imgs/a.jpg" "t0" (RemoteOutcome.reply "oops") loadsFail)
          "explanation" "" = "Error during grading: " ++ "Expecting value" ∧
      recGet (grade_embryo "a.jpg" "imgs/a.jpg" "t0" (RemoteOutcome.reply "oops") loadsFail)
          "explanation" "" ≠ "") ∧
     (grade_directory "imgs" [] "t0" (fun _ => RemoteOutcome.exc "net down") loadsFail).length =
       (([] : List String).filter matchesJpg).length +
         (([] : List String).filter matchesJpeg).length) :=
  ⟨rfl, C4_theorem "a.jpg" "imgs/a.jpg" "t0" "net down" "oops" "Expecting value" "imgs"
    loadsFail [] (fun _ => RemoteOutcome.exc "net down") rfl⟩

/-- Models json.loads on the counterexample reply: the two-character
text rendering an empty JSON object parses to the empty dict. -/
def loadsEmptyObj : String → Except String Record :=
  fun t => if t == "\x7b\x7d" then Except.ok [] else Except.error "Expecting value"

/-- C5 counterexample: when the remote reply is an empty JSON object,
the success path returns a record that has the metadata keys but LACKS
every grading field, so a successfully graded record can be partially
populated, contrary to the claim. -/
theorem C5_counterexample :
    recHasKey (grade_embryo "embryo_01.jpg" "extracted_images/embryo_01.jpg" "t0"
        (RemoteOutcome.reply "\x7b\x7d") loadsEmptyObj) "image_name" = true ∧
    recHasKey (grade_embryo "embryo_01.jpg" "extracted_images/embryo_01.jpg" "t0"
        (RemoteOutcome.reply "\x7b\x7d") loadsEmptyObj) "gardner_grade" = false ∧
    recHasKey (grade_embryo "embryo_01.jpg" "extracted_images/embryo_01.jpg" "t0"
        (RemoteOutcome.reply "\x7b\x7d") loadsEmptyObj) "quality_score" = false := by
  decide

/-- C5 (amended): on every failure path the record carries all ten
schema fields with the five grading fields atomically ERROR; on the
success path the record always carries image_name, image_path,
timestamp and full_response with the call metadata, but a grading field
is present exactly when the parsed remote JSON object supplied it, so a
success record can lack grading fields. -/
theorem C5_theorem (nm pth ts text text2 msg e : String)
    (loads : String → Except String Record) (parsed : Record)
    (herr : loads (extractJson (pyStrip text2)) = Except.error e)
    (hok : loads (extractJson (pyStrip text)) = Except.ok parsed) :
    (allFieldsPresent (grade_embryo nm pth ts (RemoteOutcome.exc msg) loads) ∧
     allGradingERROR (grade_embryo nm pth ts (RemoteOutcome.exc msg) loads)) ∧
    (allFieldsPresent (grade_embryo nm pth ts (RemoteOutcome.reply text2) loads) ∧
     allGradingERROR (grade_embryo nm pth ts (RemoteOutcome.reply text2) loads)) ∧
    (recGet (grade_embryo nm pth ts (RemoteOutcome.reply text) loads) "image_name" "" = nm ∧
     recGet (grade_embryo nm pth ts (RemoteOutcome.reply text) loads) "image_path" "" = pth ∧
     recGet (grade_embryo nm pth ts (RemoteOutcome.reply text) loads) "timestamp" "" = ts ∧
     recGet (grade_embryo nm pth ts (RemoteOutcome.reply text) loads) "full_response" "" = text ∧
     recHasKey (grade_embryo nm pth ts (RemoteOutcome.reply text) loads) "gardner_grade" =
       recHasKey parsed "gardner_grade" ∧
     recHasKey (grade_embryo nm pth ts (RemoteOutcome.reply text) loads) "expansion" =
       recHasKey parsed "expansion" ∧
     recHasKey (grade_embryo nm pth ts (RemoteOutcome.reply text) loads) "icm_quality" =
       recHasKey parsed "icm_quality" ∧
     recHasKey (grade_embryo nm pth ts (RemoteOutcome.reply text) loads) "te_quality" =
       recHasKey parsed "te_quality" ∧
     recHasKey (grade_embryo nm pth ts (RemoteOutcome.reply text) loads) "quality_score" =
       recHasKey parsed "quality_score") := by
  have hrep := grade_embryo_reply_err nm pth ts text2 e loads herr
  have hok2 := grade_embryo_reply_ok nm pth ts text loads parsed hok
  refine ⟨?_, ?_, ?_⟩
  · exact ⟨⟨rfl, rfl, rfl, rfl, rfl, rfl, rfl, rfl, rfl, rfl⟩, rfl, rfl, rfl, rfl, rfl⟩
  · rw [hrep]
    exact ⟨⟨rfl, rfl, rfl, rfl, rfl, rfl, rfl, rfl, rfl, rfl⟩, rfl, rfl, rfl, rfl, rfl⟩
  · rw [hok2]
    refine ⟨?_, ?_, ?_, ?_, ?_, ?_, ?_, ?_, ?_⟩
    · rw [recGet_set_other _ _ _ _ _ (by decide), recGet_set_other _ _ _ _ _ (by decide),
        recGet_set_other _ _ _ _ _ (by decide), recGet_set_self]
    · rw [recGet_set_other _ _ _ _ _ (by decide), recGet_set_other _ _ _ _ _ (by decide),
        recGet_set_self]
    · rw [recGet_set_other _ _ _ _ _ (by decide), recGet_set_self]
    · rw [recGet_set_self]
    · rw [recHasKey_set_other _ _ _ _ (by decide), recHasKey_set_other _ _ _ _ (by decide),
        recHasKey_set_other _ _ _ _ (by decide), recHasKey_set_other _ _ _ _ (by decide)]
    · rw [recHasKey_set_other _ _ _ _ (by decide), recHasKey_set_other _ _ _ _ (by decide),
        recHasKey_set_other _ _ _ _ (by decide), recHasKey_set_other _ _ _ _ (by decide)]
    · rw [recHasKey_set_other _ _ _ _ (by decide), recHasKey_set_other _ _ _ _ (by decide),
        recHasKey_set_other _ _ _ _ (by decide), recHasKey_set_other _ _ _ _ (by decide)]
    · rw [recHasKey_set_other _ _ _ _ (by decide), recHasKey_set_other _ _ _ _ (by decide),
        recHasKey_set_other _ _ _ _ (by decide), recHasKey_set_other _ _ _ _ (by decide)]
    · rw [recHasKey_set_other _ _ _ _ (by decide), recHasKey_set_other _ _ _ _ (by decide),
        recHasKey_set_other _ _ _ _ (by decide), recHasKey_set_other _ _ _ _ (by decide)]

/-- Models json.loads for the C5 witness: the reply ok parses to an
object holding only a gardner_grade field; anything else raises. -/
def loadsWitness : String → Except String Record :=
  fun t => if t == "ok" then Except.ok [("gardner_grade", "4AA")]
    else Except.error "Expecting value"

/-- C5 witness: the amended claim at a transport exception, a failing
parse, and a successful parse supplying only gardner_grade. -/
theorem C5_witness :
    (loadsWitness (extractJson (pyStrip "bad")) = Except.error "Expecting value" ∧
     loadsWitness (extractJson (pyStrip "ok")) = Except.ok [("gardner_grade", "4AA")]) ∧
    ((allFieldsPresent
        (grade_embryo "a.jpg" "imgs/a.jpg" "t0" (RemoteOutcome.exc "net down") loadsWitness) ∧
      allGradingERROR
        (grade_embryo "a.jpg" "imgs/a.jpg" "t0" (RemoteOutcome.exc "net down") loadsWitness)) ∧
     (allFieldsPresent
        (grade_embryo "a.jpg" "imgs/a.jpg" "t0" (RemoteOutcome.reply "bad") loadsWitness) ∧
      allGradingERROR
        (grade_embryo "a.jpg" "imgs/a.jpg" "t0" (RemoteOutcome.reply "bad") loadsWitness)) ∧
     (recGet (grade_embryo "a.jpg" "imgs/a.jpg" "t0" (RemoteOutcome.reply "ok") loadsWitness)
          "image_name" "" = "a.jpg" ∧
      recGet (grade_embryo "a.jpg" "imgs/a.jpg" "t0" (RemoteOutcome.reply "ok") loadsWitness)
          "image_path" "" = "imgs/a.jpg" ∧
      recGet (grade_embryo "a.jpg" "imgs/a.jpg" "t0" (RemoteOutcome.reply "ok") loadsWitness)
          "timestamp" "" = "t0" ∧
      recGet (grade_embryo "a.jpg" "imgs/a.jpg" "t0" (RemoteOutcome.reply "ok") loadsWitness)
          "full_response" "" = "ok" ∧
      recHasKey (grade_embryo "a.jpg" "imgs/a.jpg" "t0" (RemoteOutcome.reply "ok") loadsWitness)
          "gardner_grade" = recHasKey [("gardner_grade", "4AA")] "gardner_grade" ∧
      recHasKey (grade_embryo "a.jpg" "imgs/a.jpg" "t0" (RemoteOutcome.reply "ok") loadsWitness)
          "expansion" = recHasKey [("gardner_grade", "4AA")] "expansion" ∧
      recHasKey (grade_embryo "a.jpg" "imgs/a.jpg" "t0" (RemoteOutcome.reply "ok") loadsWitness)
          "icm_quality" = recHasKey [("gardner_grade", "4AA")] "icm_quality" ∧
      recHasKey (grade_embryo "a.jpg" "imgs/a.jpg" "t0" (RemoteOutcome.reply "ok") loadsWitness)
          "te_quality" = recHasKey [("gardner_grade", "4AA")] "te_quality" ∧
      recHasKey (grade_embryo "a.jpg" "imgs/a.jpg" "t0" (RemoteOutcome.reply "ok") loadsWitness)
          "quality_score" = recHasKey [("gardner_grade", "4AA")] "quality_score")) :=
  ⟨⟨rfl, rfl⟩, C5_theorem "a.jpg" "imgs/a.jpg" "t0" "ok" "bad" "net down" "Expecting value"
    loadsWitness [("gardner_grade", "4AA")] rfl rfl⟩

/-- C9 counterexample: with files a.jpeg and b.jpg the batch processes
b.jpg before a.jpeg (sorted jpg files first, then sorted jpeg files),
which is not the lexicographic filename order the claim states. -/
theorem C9_counterexample :
    (grade_directory "d" ["a.jpeg", "b.jpg"] "t0" (fun _ => RemoteOutcome.exc "offline")
        loadsFail).map (fun r => recGet r "image_name" "") = ["b.jpg", "a.jpeg"] ∧
    specLexOrder ["a.jpeg", "b.jpg"] = ["a.jpeg", "b.jpg"] ∧
    (["b.jpg", "a.jpeg"] : List String) ≠ ["a.jpeg", "b.jpg"] := by
  decide

/-- C9 (amended): batch grading processes exactly the files with a .jpg
or .jpeg extension, sequentially, producing one GradingRecord per file;
the order is the lexicographically sorted .jpg files followed by the
lexicographically sorted .jpeg files, not one global lexicographic
order. -/
theorem C9_theorem (dir ts : String) (files : List String)
    (outcome : String → RemoteOutcome) (loads : String → Except String Record) :
    (grade_directory dir files ts outcome loads).map (fun r => recGet r "image_name" "") =
      sortStr (files.filter matchesJpg) ++ sortStr (files.filter matchesJpeg) ∧
    ((grade_directory dir files ts outcome loads).map
        (fun r => recGet r "image_name" "")).Perm (files.filter isImageName) := by
  have hmap2 : ∀ l : List String,
      l.map ((fun r => recGet r "image_name" "") ∘
        (fun f => grade_embryo f (dir ++ "/" ++ f) ts (outcome f) loads)) = l := by
    intro l
    induction l with
    | nil => rfl
    | cons a t ih =>
      simp only [List.map_cons, Function.comp_apply, ih, grade_embryo_image_name]
  have hmain : (grade_directory dir files ts outcome loads).map
      (fun r => recGet r "image_name" "") =
      sortStr (files.filter matchesJpg) ++ sortStr (files.filter matchesJpeg) := by
    simp only [grade_directory, List.map_map]
    exact hmap2 _
  refine ⟨hmain, ?_⟩
  rw [hmain]
  exact ((sortStr_perm _).append (sortStr_perm _)).trans (filter_split_perm files)
